import Mathlib

/-!
Verification of the outbreak-risk forecasting pipeline of the alatem-sos
repository (backend/ml_models.py, backend/app.py, backend/database.py).

Numbers are modelled with `ℚ` (Python floats/ints used only through
arithmetic and order comparisons on the relevant paths), calendar dates with
`Nat` (days since 1970-01-01); Python functions that can return `None` return
`Option`, and an uncaught exception is an `Except.error`.
-/

namespace Alatem

/- Concrete rational arithmetic in witnesses is evaluated by `decide`; the
kernel computes these operations, so their reducibility markers are relaxed
for this development. -/
attribute [local semireducible] Rat.mul Rat.inv Rat.add Rat.sub

/-! ### Calendar arithmetic

`datetime` fields used by the code (`month`, `weekday`, `timetuple().tm_yday`,
`isocalendar()[1]`) are deterministic functions of the calendar day; they are
implemented here over the day number (days since 1970-01-01) with the standard
civil-from-days algorithm. -/

/-- Gregorian (year, month, day) of a day number (days since 1970-01-01). -/
def civil (z : Nat) : Nat × Nat × Nat :=
  let z' := z + 719468
  let era := z' / 146097
  let doe := z' % 146097
  let yoe := (doe - doe / 1460 + doe / 36524 - doe / 146096) / 365
  let y := yoe + era * 400
  let doy := doe - (365 * yoe + yoe / 4 - yoe / 100)
  let mp := (5 * doy + 2) / 153
  let d := doy - (153 * mp + 2) / 5 + 1
  let m := if mp < 10 then mp + 3 else mp - 9
  (if m ≤ 2 then y + 1 else y, m, d)

/-- Day number of a Gregorian date (valid for years ≥ 1970). -/
def daysFromCivil (y m d : Nat) : Nat :=
  let y' := if m ≤ 2 then y - 1 else y
  let era := y' / 400
  let yoe := y' % 400
  let mp := if 3 ≤ m then m - 3 else m + 9
  let doy := (153 * mp + 2) / 5 + d - 1
  let doe := yoe * 365 + yoe / 4 - yoe / 100 + doy
  era * 146097 + doe - 719468

/-- `future_date.month`. -/
def monthOf (z : Nat) : Nat := (civil z).2.1

/-- Year of a day number. -/
def yearOf (z : Nat) : Nat := (civil z).1

/-- Python `date.weekday()`: Monday = 0; 1970-01-01 was a Thursday. -/
def weekdayOf (z : Nat) : Nat := (z + 3) % 7

/-- `future_date.timetuple().tm_yday` (1-based day of year). -/
def dayOfYearOf (z : Nat) : Nat := z + 1 - daysFromCivil (yearOf z) 1 1

/-- ISO weekday, Monday = 1. -/
def isoWeekdayOf (z : Nat) : Nat := weekdayOf z + 1

/-- Leap year test. -/
def isLeap (y : Nat) : Bool := y % 4 = 0 ∧ (y % 100 ≠ 0 ∨ y % 400 = 0)

/-- Number of ISO weeks in year `y` (52 or 53). -/
def isoWeeksInYear (y : Nat) : Nat :=
  let wd := isoWeekdayOf (daysFromCivil y 1 1)
  if wd = 4 ∨ (wd = 3 ∧ isLeap y) then 53 else 52

/-- `future_date.isocalendar()[1]` (ISO week number). -/
def isoWeekOf (z : Nat) : Nat :=
  let w := (10 + dayOfYearOf z - isoWeekdayOf z) / 7
  if w = 0 then isoWeeksInYear (yearOf z - 1)
  else if isoWeeksInYear (yearOf z) < w then 1
  else w

/-! ### Data model -/

/-- One point of `predict_outbreak_risk`'s return value (ml_models.py:200-205).
The code stores the date as `future_date.strftime('%Y-%m-%d')`; dates are kept
here as day numbers (the formatting is injective on calendar days). -/
structure PredictionPoint where
  date : Nat
  outbreak_probability : ℚ
  predicted_cases : ℤ
  risk_level : String
deriving DecidableEq, Repr, Inhabited

/-- The dict returned by `get_historical_health_data` (app.py:677-697). -/
structure HistoricalSummary where
  recent_cases_7d : ℚ
  recent_cases_14d : ℚ
  avg_cases_7d : ℚ
deriving DecidableEq, Repr, Inhabited

/-- One entry of `dataset/haiti_areas.json`; the two inner `.get` calls have
their own defaults, so the fields are optional. -/
structure AreaInfo where
  population : Option ℚ
  risk_factor : Option ℚ
deriving DecidableEq, Repr, Inhabited

/-- The state of a `HealthOutbreakPredictor` used on the inference path
(ml_models.py:14-21, after training/loading).  `label_encoders` is the dict
from encoder name to the encoder's `classes_` list (a `LabelEncoder` maps a
value to its index in `classes_` and raises `ValueError` on unseen values;
a missing dict key raises `KeyError`).  The fitted scaler, classifier and
regressor are opaque deterministic functions: `scaler` is
`StandardScaler.transform` on one row, `classifierProba1` is
`predict_proba(X)[0][1]`, `regressor` is `predict(X)[0]`. -/
structure HPModel where
  is_trained : Bool
  feature_cols : List String
  label_encoders : List (String × List String)
  scaler : List ℚ → List ℚ
  classifierProba1 : List ℚ → ℚ
  regressor : List ℚ → ℚ

/-- Dict lookup in an association list. -/
def alookup {α : Type} (key : String) : List (String × α) → Option α
  | [] => none
  | (k, v) :: rest => if k = key then some v else alookup key rest

/-- `self.label_encoders[name].transform([x])[0]`: `none` models the caught
`KeyError`/`ValueError` (missing encoder, or value not among `classes_`). -/
def encoderTransform (m : HPModel) (name x : String) : Option Nat :=
  (alookup name m.label_encoders).bind (fun classes => classes.indexOf? x)

/-- `'HIGH' if outbreak_prob > 0.7 else 'MEDIUM' if outbreak_prob > 0.4 else 'LOW'`
(ml_models.py:204). -/
def riskLevel (p : ℚ) : String :=
  if p > 7/10 then "HIGH" else if p > 2/5 then "MEDIUM" else "LOW"

/-- The body of one iteration of the `for day in range(1, days_ahead+1)` loop
of `predict_outbreak_risk` (ml_models.py:153-205).  `areasInfo` models the
parsed contents of `dataset/haiti_areas.json` (`{}` when the file is absent).
`.ok none` is the `continue` taken when the area/condition encoding fails;
`.error ()` is the uncaught `KeyError` raised when a name of `feature_cols`
is not a key of the `features` dict. -/
def predictDay (m : HPModel) (areasInfo : String → Option AreaInfo)
    (today : Nat) (area condition : String) (h : HistoricalSummary)
    (day : Nat) : Except Unit (Option PredictionPoint) :=
  let futureDate := today + day
  let areaInfo := (areasInfo area).getD ⟨some 100000, some (1/2)⟩
  match encoderTransform m "area" area, encoderTransform m "condition" condition with
  | some areaEncoded, some conditionEncoded =>
    let features : List (String × ℚ) :=
      [("area_encoded", (areaEncoded : ℚ)),
       ("condition_encoded", (conditionEncoded : ℚ)),
       ("population", areaInfo.population.getD 100000),
       ("risk_factor", areaInfo.risk_factor.getD (1/2)),
       ("month", (monthOf futureDate : ℚ)),
       ("day_of_week", (weekdayOf futureDate : ℚ)),
       ("day_of_year", (dayOfYearOf futureDate : ℚ)),
       ("week_of_year", (isoWeekOf futureDate : ℚ)),
       ("is_rainy_season", if monthOf futureDate ∈ [4,5,6,7,8,9] then 1 else 0),
       ("rainfall", if monthOf futureDate ∈ [4,5,6,7,8,9] then 25 else 5),
       ("cases_lag_7", h.recent_cases_7d),
       ("cases_lag_14", h.recent_cases_14d),
       ("cases_rolling_7", h.avg_cases_7d)]
    match m.feature_cols.mapM (fun col => alookup col features) with
    | none => .error ()
    | some xPred =>
      let xScaled := m.scaler xPred
      let outbreakProb := m.classifierProba1 xScaled
      let predictedCases := Rat.floor (max 0 (m.regressor xScaled))
      .ok (some { date := futureDate
                  outbreak_probability := outbreakProb
                  predicted_cases := predictedCases
                  risk_level := riskLevel outbreakProb })
  | _, _ => .ok none

/-- The day loop of `predict_outbreak_risk`, accumulating the `predictions`
list; an uncaught exception in one iteration aborts the loop. -/
def runDays (m : HPModel) (areasInfo : String → Option AreaInfo)
    (today : Nat) (area condition : String) (h : HistoricalSummary) :
    List Nat → Except Unit (List PredictionPoint)
  | [] => .ok []
  | d :: ds =>
    match predictDay m areasInfo today area condition h d with
    | .error e => .error e
    | .ok none => runDays m areasInfo today area condition h ds
    | .ok (some pt) =>
      match runDays m areasInfo today area condition h ds with
      | .error e => .error e
      | .ok rest => .ok (pt :: rest)

/-- `HealthOutbreakPredictor.predict_outbreak_risk` (ml_models.py:141-207).
`.ok none` models Python's `return None` (untrained model, or missing/empty
`feature_cols`); `today` models the `datetime.now()` date. -/
def predictOutbreakRisk (m : HPModel) (areasInfo : String → Option AreaInfo)
    (today : Nat) (area condition : String) (h : HistoricalSummary)
    (daysAhead : Nat) : Except Unit (Option (List PredictionPoint)) :=
  if m.is_trained = false then .ok none
  else if m.feature_cols = [] then .ok none
  else
    match runDays m areasInfo today area condition h (List.range' 1 daysAhead) with
    | .error e => .error e
    | .ok pts => .ok (some pts)

/-! ### Feature Builder (`prepare_features`, ml_models.py:23-64)

Only the fields that `prepare_features` and `train` read are modelled.  The
source groups rows by `(area_encoded, condition_encoded)`; a `LabelEncoder`
assigns distinct ids to distinct labels, so those partitions coincide with the
partitions by `(area, condition)` used here. -/

/-- One row of the training dataframe (one health report). -/
structure Report where
  area : String
  condition : String
  date : Nat
  cases : ℚ
  population : ℚ
  risk_factor : ℚ
  month : Nat
  day_of_week : Nat
  rainfall : ℚ
  is_outbreak : Bool
deriving DecidableEq, Repr, Inhabited

/-- Grouping key of the lag/rolling computation (ml_models.py:51). -/
def groupKey (r : Report) : String × String := (r.area, r.condition)

/-- Pandas `Series.shift(k)`: the first `k` positions become NaN (`none`),
the remaining positions take the value `k` rows earlier. -/
def seriesShift (k : Nat) (xs : List ℚ) : List (Option ℚ) :=
  List.replicate (min k xs.length) none ++ (xs.take (xs.length - k)).map some

/-- Pandas `Series.rolling(window=w, min_periods=1).mean()`: at position `i`,
the mean of the up-to-`w` values ending at `i`. -/
def rollingMean (w : Nat) (xs : List ℚ) : List ℚ :=
  (List.range xs.length).map fun i =>
    let win := (xs.take (i + 1)).drop (i + 1 - w)
    win.sum / (win.length : ℚ)

/-- A report together with the lag/rolling columns added by
`prepare_features` (the other derived columns are recomputed from the report
where needed). -/
structure FeatureRow where
  report : Report
  cases_lag_7 : ℚ
  cases_lag_14 : ℚ
  cases_rolling_7 : ℚ
deriving DecidableEq, Repr, Inhabited

/-- `group.sort_values('date')` for one group (a comparison sort ascending
by date; ties are broken arbitrarily, as in the source's library sort). -/
def sortByDate (l : List Report) : List Report :=
  l.insertionSort (fun a b => a.date ≤ b.date)

/-- The rows of `df` belonging to group `k`, sorted ascending by date. -/
def groupOf (df : List Report) (k : String × String) : List Report :=
  sortByDate (df.filter (fun r => groupKey r = k))

/-- The distinct group keys of `df`. -/
def keysOf (df : List Report) : List (String × String) :=
  (df.map groupKey).dedup

/-- Lines 52-55 of ml_models.py for one (already sorted) group: `shift(7)`,
`shift(14)`, `rolling(7, min_periods=1).mean()`, with the later `fillna(0)`
applied to the new columns. -/
def addLagRolling (g : List Report) : List FeatureRow :=
  let cs := g.map (·.cases)
  (List.range g.length).map fun i =>
    { report := g.getD i default
      cases_lag_7 := ((seriesShift 7 cs).getD i none).getD 0
      cases_lag_14 := ((seriesShift 14 cs).getD i none).getD 0
      cases_rolling_7 := (rollingMean 7 cs).getD i 0 }

/-- The lag/rolling part of `prepare_features` (ml_models.py:45-62): group by
(area, condition), per-group sort by date and compute the three columns, then
concatenate the groups. -/
def prepareLagFeatures (df : List Report) : List FeatureRow :=
  (keysOf df).flatMap fun k => addLagRolling (groupOf df k)

/-! ### Outbreak Model training (`train`, ml_models.py:66-139) -/

/-- `LabelEncoder.fit(values).classes_`: the sorted distinct values. -/
def fitClasses (values : List String) : List String :=
  values.dedup.insertionSort (fun a b => a ≤ b)

/-- The feature-column list fixed by `train` (ml_models.py:74-78). -/
def healthFeatureCols : List String :=
  ["area_encoded", "condition_encoded", "population", "risk_factor",
   "month", "day_of_week", "day_of_year", "week_of_year",
   "is_rainy_season", "rainfall", "cases_lag_7", "cases_lag_14",
   "cases_rolling_7"]

/-- The numeric feature vector of one row, in `healthFeatureCols` order. -/
def toFeatureVec (areaClasses condClasses : List String) (fr : FeatureRow) :
    List ℚ :=
  let r := fr.report
  [((areaClasses.indexOf r.area : Nat) : ℚ),
   ((condClasses.indexOf r.condition : Nat) : ℚ),
   r.population, r.risk_factor, (r.month : ℚ), (r.day_of_week : ℚ),
   (dayOfYearOf r.date : ℚ), (isoWeekOf r.date : ℚ),
   (if r.month ∈ [4,5,6,7,8,9] then 1 else 0), r.rainfall,
   fr.cases_lag_7, fr.cases_lag_14, fr.cases_rolling_7]

/-- Failures that `train` propagates to its caller. -/
inductive TrainError
  | emptyInput
  | emptySplit
deriving DecidableEq, Repr

/-- `n_test` of `train_test_split(..., test_size=0.2)`: `ceil(0.2 * n)`. -/
def nTest (n : Nat) : Nat := (n + 4) / 5

/-- `HealthOutbreakPredictor.train` (ml_models.py:66-119).

Library failure points modelled as errors:
* an empty dataframe produces no groups, and `pd.concat([])` inside
  `prepare_features` raises `ValueError` (`emptyInput`);
* `train_test_split(..., test_size=0.2)` raises `ValueError` when the
  resulting training partition would be empty, i.e. when there is exactly one
  row (`emptySplit`).

The seeded deterministic 80/20 shuffle and the three `fit` calls are
abstracted as parameters: `trainSel n` is the list of training-row indices
chosen by `random_state=42` for `n` rows, and `fitScaler`/`fitCls`/`fitReg`
are the fitted `StandardScaler.transform`, `predict_proba(·)[0][1]` and
regressor `predict(·)[0]` obtained from the training partition.  A
`LabelEncoder` accepts a single distinct class without error, so no check on
the number of distinct areas or conditions appears anywhere in this path. -/
def trainModel (trainSel : Nat → List Nat)
    (fitScaler : List (List ℚ) → (List ℚ → List ℚ))
    (fitCls fitReg : List (List ℚ) → List ℚ → (List ℚ → ℚ))
    (df : List Report) : Except TrainError HPModel :=
  if df.isEmpty then .error .emptyInput
  else
    let areaClasses := fitClasses (df.map (·.area))
    let condClasses := fitClasses (df.map (·.condition))
    let feats := prepareLagFeatures df
    let n := feats.length
    if n - nTest n = 0 then .error .emptySplit
    else
      let x := feats.map (toFeatureVec areaClasses condClasses)
      let xTrain := (trainSel n).map (fun i => x.getD i [])
      let yOutbreakTrain := (trainSel n).map
        (fun i => if (feats.getD i default).report.is_outbreak then (1 : ℚ) else 0)
      let yCasesTrain := (trainSel n).map (fun i => (feats.getD i default).report.cases)
      let scaler := fitScaler xTrain
      let xTrainScaled := xTrain.map scaler
      .ok { is_trained := true
            feature_cols := healthFeatureCols
            label_encoders := [("area", areaClasses), ("condition", condClasses)]
            scaler := scaler
            classifierProba1 := fitCls xTrainScaled yOutbreakTrain
            regressor := fitReg xTrainScaled yCasesTrain }

/-! ### Prediction persistence (`save_prediction`)

Two implementations exist: `DatabaseManager.save_prediction` in app.py
(lines 237-253) keys on (area, date, type), while the one in database.py
(lines 330-352) keys on (area, date, type, condition).  In both files the
MongoDB branch is a `replace_one(filter, data, upsert=True)` with the same
key as the JSON branch; the JSON branch is modelled. -/

/-- A stored prediction record.  The unread payload fields (`id`,
`timestamp`, `generated_by`) are summarised by `payload`; `condition` is an
`Option` because both implementations read it with `.get('condition')`. -/
structure PredRecord where
  area : String
  date : Nat
  ptype : String
  condition : Option String
  predictions : List PredictionPoint
  payload : String
deriving DecidableEq, Repr, Inhabited

/-- The (area, date, type) key used by app.py's `save_prediction`. -/
def key3 (p : PredRecord) : String × Nat × String := (p.area, p.date, p.ptype)

/-- The (area, date, type, condition) key used by database.py's
`save_prediction`. -/
def key4 (p : PredRecord) : String × Nat × String × Option String :=
  (p.area, p.date, p.ptype, p.condition)

/-- app.py:237-253, JSON branch: drop records matching on area/date/type,
then append the new record. -/
def savePredictionApp (db : List PredRecord) (r : PredRecord) :
    List PredRecord :=
  (db.filter fun p =>
    ¬(p.area = r.area ∧ p.date = r.date ∧ p.ptype = r.ptype)) ++ [r]

/-- database.py:330-352, JSON branch: drop records matching on
area/date/type/condition, then append the new record. -/
def savePredictionDb (db : List PredRecord) (r : PredRecord) :
    List PredRecord :=
  (db.filter fun p =>
    ¬(p.area = r.area ∧ p.date = r.date ∧ p.ptype = r.ptype ∧
      p.condition = r.condition)) ++ [r]

/-! ### Prediction Orchestrator (`run_predictions_for_all_areas`,
app.py:698-742) -/

/-- One entry of the `high_risk_predictions` list (app.py:731-738). -/
structure HighRisk where
  area : String
  condition : String
  date : Nat
  probability : ℚ
  predicted_cases : ℤ
deriving DecidableEq, Repr, Inhabited

/-- Orchestrator state: the prediction store (app.py's `DatabaseManager`),
an append-only log of every record passed to `save_prediction`
(the calls observed during the scan), the accumulated high-risk triggers,
and the pairs whose exception was caught and logged. -/
structure OrchState where
  db : List PredRecord
  saved : List PredRecord
  highRisk : List HighRisk
  errLog : List (String × String)
deriving DecidableEq, Repr, Inhabited

/-- The fixed `areas` list (app.py:704). -/
def allAreas : List String :=
  ["CITE_SOLEIL", "DELMAS", "TABARRE", "MARTISSANT", "CARREFOUR",
   "PETIONVILLE", "CROIX_DES_BOUQUETS", "PORT_AU_PRINCE"]

/-- The fixed `conditions` list (app.py:705). -/
def allConditions : List String :=
  ["cholera", "malnutrition", "fever", "diarrhea", "respiratory"]

/-- The (area, condition) pairs scanned by the nested loops, in order. -/
def allPairs : List (String × String) :=
  allAreas.flatMap fun a => allConditions.map fun c => (a, c)

/-- The `prediction_data` record built at app.py:716-725.  `idGen` models
`generate_id()`/`timestamp` and the other payload fields. -/
def mkPredictionRecord (idGen : String × String → String)
    (today : Nat) (p : String × String) (preds : List PredictionPoint) :
    PredRecord :=
  { area := p.1, date := today, ptype := "health", condition := some p.2,
    predictions := preds, payload := idGen p }

/-- The body of the inner loop of `run_predictions_for_all_areas` for one
(area, condition) pair (app.py:707-741).  `outcome p` is the combined result
of `get_historical_health_data` plus `predict_outbreak_risk` for pair `p`:
`.error ()` when that `try` body raises, `.ok none` when the predictor
returned `None`, `.ok (some preds)` otherwise.  The `except` clause logs the
pair and continues; `if predictions:` skips `None` and `[]`. -/
def orchStep (idGen : String × String → String) (today : Nat)
    (outcome : String × String → Except Unit (Option (List PredictionPoint)))
    (s : OrchState) (p : String × String) : OrchState :=
  match outcome p with
  | .error _ => { s with errLog := s.errLog ++ [p] }
  | .ok none => s
  | .ok (some preds) =>
    if preds.isEmpty then s
    else
      let rec' := mkPredictionRecord idGen today p preds
      { s with
        db := savePredictionApp s.db rec'
        saved := s.saved ++ [rec']
        highRisk := s.highRisk ++
          (preds.filter (fun pt => pt.risk_level = "HIGH")).map
            (fun pt => { area := p.1, condition := p.2, date := pt.date,
                         probability := pt.outbreak_probability,
                         predicted_cases := pt.predicted_cases }) }

/-- The nested pair loop of `run_predictions_for_all_areas` over an explicit
pair list. -/
def scanPairs (idGen : String × String → String) (today : Nat)
    (outcome : String × String → Except Unit (Option (List PredictionPoint)))
    (s : OrchState) (pairs : List (String × String)) : OrchState :=
  pairs.foldl (orchStep idGen today outcome) s

/-- `run_predictions_for_all_areas` up to the final alert loop (which only
reads `highRisk`): scan the fixed 8 x 5 pair list. -/
def runPredictionsForAllAreas (idGen : String × String → String) (today : Nat)
    (outcome : String × String → Except Unit (Option (List PredictionPoint)))
    (db0 : List PredRecord) : OrchState :=
  scanPairs idGen today outcome ⟨db0, [], [], []⟩ allPairs

/-! ### Historical summary (`get_historical_health_data`, app.py:677-697) -/

/-- One stored health report as read by `get_recent_health_reports`
(app.py:269-288, JSON branch); the timestamp is a day number and is assumed
parseable (unparseable records are skipped by the source). -/
structure StoredReport where
  area : String
  condition : String
  timestamp : Nat
  cases : ℚ
deriving DecidableEq, Repr, Inhabited

/-- `DatabaseManager.get_recent_health_reports` (app.py:269-288, JSON
branch): reports for the area and condition at or after `since`, in storage
order. -/
def getRecentHealthReports (reports : List StoredReport)
    (area condition : String) (since : Nat) : List StoredReport :=
  reports.filter fun r =>
    r.area = area ∧ r.condition = condition ∧ since ≤ r.timestamp

/-- Python `l[-n:]`: the last `min n (length l)` elements. -/
def lastN {α : Type} (n : Nat) (l : List α) : List α :=
  l.drop (l.length - n)

/-- `get_historical_health_data` (app.py:677-697).  `now` is the current day
number; `since` is `now - 30` days.  In the non-empty branch the source's
`if recent_reports else 0` is always taken. -/
def getHistoricalHealthData (reports : List StoredReport)
    (area condition : String) (now : Nat) : HistoricalSummary :=
  let recent := getRecentHealthReports reports area condition (now - 30)
  if recent.isEmpty then ⟨0, 0, 0⟩
  else
    let total7 := ((lastN 7 recent).map (·.cases)).sum
    let total14 := ((lastN 14 recent).map (·.cases)).sum
    ⟨total7, total14, total7 / 7⟩

/-! ### Test fixtures (concrete instances used by witnesses and
counterexamples) -/

/-- An absent `dataset/haiti_areas.json` (the `FileNotFoundError` branch). -/
def info0 : String → Option AreaInfo := fun _ => none

/-- A historical summary with no recent reports. -/
def h0 : HistoricalSummary := ⟨0, 0, 0⟩

/-- A concrete "today" (2024-10-04 as a day number). -/
def today0 : Nat := 20000

/-- A model trained on area `DELMAS` and condition `cholera` only, with
concrete deterministic fitted functions. -/
def testModel : HPModel :=
  { is_trained := true
    feature_cols := healthFeatureCols
    label_encoders := [("area", ["DELMAS"]), ("condition", ["cholera"])]
    scaler := fun v => v
    classifierProba1 := fun _ => 7/10
    regressor := fun _ => 3 }

/-- `testModel` with the loaded `feature_cols` missing (modelled as `[]`). -/
def testModelNoCols : HPModel := { testModel with feature_cols := [] }

/-! ### Helper lemmas -/

theorem key4_eq_iff (p r : PredRecord) :
    key4 p = key4 r ↔
      (p.area = r.area ∧ p.date = r.date ∧ p.ptype = r.ptype ∧
       p.condition = r.condition) := by
  simp [key4, Prod.ext_iff]

theorem key3_eq_iff (p r : PredRecord) :
    key3 p = key3 r ↔
      (p.area = r.area ∧ p.date = r.date ∧ p.ptype = r.ptype) := by
  simp [key3, Prod.ext_iff]

theorem savePredictionDb_filter_key (db : List PredRecord) (r : PredRecord) :
    (savePredictionDb db r).filter (fun p => key4 p = key4 r) = [r] := by
  unfold savePredictionDb
  rw [List.filter_append]
  have h1 : (db.filter fun p =>
      ¬(p.area = r.area ∧ p.date = r.date ∧ p.ptype = r.ptype ∧
        p.condition = r.condition)).filter (fun p => key4 p = key4 r) = [] := by
    rw [List.filter_eq_nil_iff]
    intro p hp
    rcases List.mem_filter.mp hp with ⟨-, hne⟩
    simp only [decide_eq_true_eq] at hne ⊢
    exact fun hk => hne ((key4_eq_iff p r).mp hk)
  have h2 : ([r].filter fun p => key4 p = key4 r) = [r] := by
    simp
  rw [h1, h2, List.nil_append]

theorem savePredictionDb_preserves (db : List PredRecord) (r p : PredRecord)
    (hp : p ∈ db) (hne : key4 p ≠ key4 r) : p ∈ savePredictionDb db r := by
  unfold savePredictionDb
  refine List.mem_append_left _ (List.mem_filter.mpr ⟨hp, ?_⟩)
  simp only [decide_eq_true_eq]
  exact fun hk => hne ((key4_eq_iff p r).mpr hk)

theorem savePredictionDb_mem (db : List PredRecord) (r p : PredRecord)
    (hp : p ∈ savePredictionDb db r) : p ∈ db ∨ p = r := by
  unfold savePredictionDb at hp
  rcases List.mem_append.mp hp with hp | hp
  · exact Or.inl (List.mem_filter.mp hp).1
  · exact Or.inr (List.mem_singleton.mp hp)

theorem savePredictionDb_idem (db : List PredRecord) (r : PredRecord) :
    savePredictionDb (savePredictionDb db r) r = savePredictionDb db r := by
  conv_lhs => rw [savePredictionDb, savePredictionDb]
  rw [List.filter_append]
  have h1 : ((db.filter fun p =>
      ¬(p.area = r.area ∧ p.date = r.date ∧ p.ptype = r.ptype ∧
        p.condition = r.condition)).filter fun p =>
      ¬(p.area = r.area ∧ p.date = r.date ∧ p.ptype = r.ptype ∧
        p.condition = r.condition)) =
      db.filter fun p =>
      ¬(p.area = r.area ∧ p.date = r.date ∧ p.ptype = r.ptype ∧
        p.condition = r.condition) := by
    rw [List.filter_eq_self]
    intro p hp
    exact (List.mem_filter.mp hp).2
  have h2 : ([r].filter fun p =>
      ¬(p.area = r.area ∧ p.date = r.date ∧ p.ptype = r.ptype ∧
        p.condition = r.condition)) = [] := by
    simp
  rw [h1, h2, List.append_nil, savePredictionDb]

theorem savePredictionApp_filter_key (db : List PredRecord) (r : PredRecord) :
    (savePredictionApp db r).filter (fun p => key3 p = key3 r) = [r] := by
  unfold savePredictionApp
  rw [List.filter_append]
  have h1 : (db.filter fun p =>
      ¬(p.area = r.area ∧ p.date = r.date ∧ p.ptype = r.ptype)).filter
        (fun p => key3 p = key3 r) = [] := by
    rw [List.filter_eq_nil_iff]
    intro p hp
    rcases List.mem_filter.mp hp with ⟨-, hne⟩
    simp only [decide_eq_true_eq] at hne ⊢
    exact fun hk => hne ((key3_eq_iff p r).mp hk)
  have h2 : ([r].filter fun p => key3 p = key3 r) = [r] := by
    simp
  rw [h1, h2, List.nil_append]

theorem savePredictionApp_preserves (db : List PredRecord) (r p : PredRecord)
    (hp : p ∈ db) (hne : key3 p ≠ key3 r) : p ∈ savePredictionApp db r := by
  unfold savePredictionApp
  refine List.mem_append_left _ (List.mem_filter.mpr ⟨hp, ?_⟩)
  simp only [decide_eq_true_eq]
  exact fun hk => hne ((key3_eq_iff p r).mpr hk)

/-! ### C1 — `save_prediction` as an upsert -/

/-- Fixture: a health prediction record for `DELMAS`/`cholera`. -/
def rec1 : PredRecord :=
  ⟨"DELMAS", 20000, "health", some "cholera", [], "id1"⟩

/-- Fixture: a health prediction record for `DELMAS`/`fever`, same area, date
and type as `rec1` but a different condition. -/
def rec2 : PredRecord :=
  ⟨"DELMAS", 20000, "health", some "fever", [], "id2"⟩

/-- C1, counterexample: `DatabaseManager.save_prediction` in app.py is not an
upsert keyed by (area, date, type, condition): saving `rec2`, whose
(area, date, type, condition) key differs from `rec1`'s, nevertheless deletes
the stored `rec1` (the filter at app.py:245-250 ignores `condition`), so
records with distinct 4-component keys are not preserved. -/
theorem save_prediction_app_drops_other_condition :
    key4 rec1 ≠ key4 rec2 ∧
    savePredictionApp (savePredictionApp [] rec1) rec2 = [rec2] ∧
    rec1 ∉ savePredictionApp (savePredictionApp [] rec1) rec2 := by
  refine ⟨by decide, by decide, by decide⟩

/-- C1 (amended): `save_prediction` in database.py is an idempotent upsert
keyed by (area, date, type, condition): after a save, exactly one stored
record has the saved record's key (the new record); records with a different
key are preserved; nothing else is added; saving again is a no-op; and a
second save with the same key replaces the first without duplicating.
app.py's `DatabaseManager.save_prediction`, by contrast, keys only on
(area, date, type): it guarantees the same properties only for the coarser
3-component key. -/
theorem save_prediction_upsert (db : List PredRecord) (r : PredRecord) :
    ((savePredictionDb db r).filter (fun p => key4 p = key4 r) = [r]) ∧
    (∀ p ∈ db, key4 p ≠ key4 r → p ∈ savePredictionDb db r) ∧
    (∀ p ∈ savePredictionDb db r, p ∈ db ∨ p = r) ∧
    (savePredictionDb (savePredictionDb db r) r = savePredictionDb db r) ∧
    (∀ r2, key4 r2 = key4 r →
      (savePredictionDb (savePredictionDb db r) r2).filter
        (fun p => key4 p = key4 r2) = [r2]) ∧
    ((savePredictionApp db r).filter (fun p => key3 p = key3 r) = [r]) ∧
    (∀ p ∈ db, key3 p ≠ key3 r → p ∈ savePredictionApp db r) := by
  refine ⟨savePredictionDb_filter_key db r,
    fun p hp hne => savePredictionDb_preserves db r p hp hne,
    fun p hp => savePredictionDb_mem db r p hp,
    savePredictionDb_idem db r,
    fun r2 _ => savePredictionDb_filter_key (savePredictionDb db r) r2,
    savePredictionApp_filter_key db r,
    fun p hp hne => savePredictionApp_preserves db r p hp hne⟩

/-- C1, witness: saving `rec2` over a store holding `rec1` (different
condition) through database.py's `save_prediction` keeps `rec1` and stores
exactly one record with `rec2`'s key. -/
theorem save_prediction_upsert_witness :
    rec1 ∈ savePredictionDb [rec1] rec2 ∧
    (savePredictionDb [rec1] rec2).filter (fun p => key4 p = key4 rec2) =
      [rec2] := by
  exact ⟨(save_prediction_upsert [rec1] rec2).2.1 rec1 (by decide) (by decide),
    (save_prediction_upsert [rec1] rec2).1⟩

/-! ### C2 — risk-level thresholds -/

theorem riskLevel_high_iff (p : ℚ) : riskLevel p = "HIGH" ↔ 7/10 < p := by
  unfold riskLevel
  split_ifs with h1 h2 <;> simp_all

theorem riskLevel_medium_iff (p : ℚ) :
    riskLevel p = "MEDIUM" ↔ (2/5 < p ∧ p ≤ 7/10) := by
  unfold riskLevel
  split_ifs with h1 h2 <;> simp_all <;> linarith

theorem riskLevel_low_iff (p : ℚ) : riskLevel p = "LOW" ↔ p ≤ 2/5 := by
  unfold riskLevel
  split_ifs with h1 h2 <;> simp_all <;> linarith

/-- Every point emitted by one loop iteration carries the risk level computed
from its own outbreak probability by the threshold expression. -/
theorem predictDay_risk_level (m : HPModel) (info : String → Option AreaInfo)
    (today : Nat) (a c : String) (h : HistoricalSummary) (d : Nat)
    (pt : PredictionPoint)
    (hpt : predictDay m info today a c h d = .ok (some pt)) :
    pt.risk_level = riskLevel pt.outbreak_probability := by
  unfold predictDay at hpt
  cases hA : encoderTransform m "area" a with
  | none => rw [hA] at hpt; simp at hpt
  | some ae =>
    cases hC : encoderTransform m "condition" c with
    | none => rw [hA, hC] at hpt; simp at hpt
    | some ce =>
      rw [hA, hC] at hpt
      simp only [] at hpt
      cases hM : List.mapM (fun col => alookup col _) m.feature_cols with
      | none => rw [hM] at hpt; simp at hpt
      | some xs =>
        rw [hM] at hpt
        simp only [Except.ok.injEq, Option.some.injEq] at hpt
        subst hpt
        rfl

/-- Points returned by the day loop satisfy the risk-level characterization. -/
theorem runDays_risk_level (m : HPModel) (info : String → Option AreaInfo)
    (today : Nat) (a c : String) (h : HistoricalSummary) :
    ∀ (ds : List Nat) (pts : List PredictionPoint),
      runDays m info today a c h ds = .ok pts →
      ∀ pt ∈ pts, pt.risk_level = riskLevel pt.outbreak_probability := by
  intro ds
  induction ds with
  | nil =>
    intro pts hpts pt hpt
    simp only [runDays] at hpts
    cases hpts
    simp at hpt
  | cons d ds ih =>
    intro pts hpts pt hpt
    simp only [runDays] at hpts
    cases hday : predictDay m info today a c h d with
    | error e => rw [hday] at hpts; simp at hpts
    | ok o =>
      cases o with
      | none =>
        rw [hday] at hpts
        exact ih pts hpts pt hpt
      | some pt0 =>
        rw [hday] at hpts
        cases hrest : runDays m info today a c h ds with
        | error e => rw [hrest] at hpts; simp at hpts
        | ok rest =>
          rw [hrest] at hpts
          simp only [Except.ok.injEq] at hpts
          subst hpts
          rcases List.mem_cons.mp hpt with rfl | hmem
          · exact predictDay_risk_level m info today a c h d pt hday
          · exact ih rest hrest pt hmem

/-- C2: for every point produced by `predict_outbreak_risk` with outbreak
probability p, the risk level is HIGH iff p > 0.7, MEDIUM iff
0.4 < p ≤ 0.7, LOW iff p ≤ 0.4; in particular p = 0.7 gives MEDIUM and
p = 0.4 gives LOW. -/
theorem predict_risk_level_thresholds (m : HPModel)
    (info : String → Option AreaInfo) (today : Nat) (a c : String)
    (h : HistoricalSummary) (n : Nat) (pts : List PredictionPoint)
    (hok : predictOutbreakRisk m info today a c h n = .ok (some pts)) :
    ∀ pt ∈ pts,
      (pt.risk_level = "HIGH" ↔ 7/10 < pt.outbreak_probability) ∧
      (pt.risk_level = "MEDIUM" ↔
        (2/5 < pt.outbreak_probability ∧ pt.outbreak_probability ≤ 7/10)) ∧
      (pt.risk_level = "LOW" ↔ pt.outbreak_probability ≤ 2/5) ∧
      (pt.outbreak_probability = 7/10 → pt.risk_level = "MEDIUM") ∧
      (pt.outbreak_probability = 2/5 → pt.risk_level = "LOW") := by
  intro pt hpt
  have hrisk : pt.risk_level = riskLevel pt.outbreak_probability := by
    unfold predictOutbreakRisk at hok
    split_ifs at hok with h1 h2
    · simp at hok
    · simp at hok
    · cases hrun : runDays m info today a c h (List.range' 1 n) with
      | error e => rw [hrun] at hok; simp at hok
      | ok pts0 =>
        rw [hrun] at hok
        simp only [Except.ok.injEq, Option.some.injEq] at hok
        subst hok
        exact runDays_risk_level m info today a c h _ pts0 hrun pt hpt
  rw [hrisk]
  refine ⟨riskLevel_high_iff _, riskLevel_medium_iff _, riskLevel_low_iff _,
    ?_, ?_⟩
  · intro hp; rw [hp]; rw [riskLevel_medium_iff]; norm_num
  · intro hp; rw [hp]; rw [riskLevel_low_iff]

/-- Decidable equality for `Except` results, used to evaluate concrete
predictions in witnesses. -/
instance {ε α : Type} [DecidableEq ε] [DecidableEq α] :
    DecidableEq (Except ε α) := fun x y =>
  match x, y with
  | .ok a, .ok b =>
    if h : a = b then isTrue (by rw [h])
    else isFalse (fun he => h (Except.ok.inj he))
  | .error a, .error b =>
    if h : a = b then isTrue (by rw [h])
    else isFalse (fun he => h (Except.error.inj he))
  | .ok _, .error _ => isFalse (fun he => Except.noConfusion he)
  | .error _, .ok _ => isFalse (fun he => Except.noConfusion he)

/-- The single point `testModel` predicts for day 1. -/
def pt0 : PredictionPoint := ⟨today0 + 1, 7/10, 3, "MEDIUM"⟩

/-- C2, witness: `testModel`'s classifier returns probability 0.7, and the
produced point's risk level is MEDIUM, at the boundary. -/
theorem predict_risk_level_thresholds_witness :
    (pt0.risk_level = "MEDIUM" ↔
      (2/5 < pt0.outbreak_probability ∧ pt0.outbreak_probability ≤ 7/10)) ∧
    (pt0.outbreak_probability = 7/10 → pt0.risk_level = "MEDIUM") := by
  have h := predict_risk_level_thresholds testModel info0 today0 "DELMAS"
    "cholera" h0 1 [pt0] (by decide) pt0 (List.mem_singleton.mpr rfl)
  exact ⟨h.2.1, h.2.2.2.1⟩

/-! ### C7 — deterministic inference -/

/-- C7: inference is deterministic: `predict_outbreak_risk` is a pure
function of the model state, the areas file, the current date, the arguments
and the historical summary — two calls with equal inputs return equal
results, and nothing else (no randomness source) enters the computation.
(The wall-clock date read by `datetime.now()` is the explicit `today`
input.) -/
theorem predict_deterministic (m1 m2 : HPModel)
    (info1 info2 : String → Option AreaInfo) (today1 today2 : Nat)
    (a c : String) (h1 h2 : HistoricalSummary) (n : Nat)
    (hm : m1 = m2) (hinfo : info1 = info2) (htoday : today1 = today2)
    (hh : h1 = h2) :
    predictOutbreakRisk m1 info1 today1 a c h1 n =
      predictOutbreakRisk m2 info2 today2 a c h2 n := by
  rw [hm, hinfo, htoday, hh]

/-- C7, witness: two identical concrete calls agree. -/
theorem predict_deterministic_witness :
    predictOutbreakRisk testModel info0 today0 "DELMAS" "cholera" h0 7 =
      predictOutbreakRisk testModel info0 today0 "DELMAS" "cholera" h0 7 :=
  predict_deterministic testModel testModel info0 info0 today0 today0
    "DELMAS" "cholera" h0 h0 7 rfl rfl rfl rfl

/-! ### C3 / C9 — unknown categories and the None/[] distinction -/

/-- When the area or condition encoding fails, every iteration of the day
loop takes the `except (KeyError, ValueError): continue` path, so the loop
accumulates nothing. -/
theorem runDays_unknown (m : HPModel) (info : String → Option AreaInfo)
    (today : Nat) (a c : String) (h : HistoricalSummary)
    (hu : encoderTransform m "area" a = none ∨
          encoderTransform m "condition" c = none) :
    ∀ ds : List Nat, runDays m info today a c h ds = .ok [] := by
  intro ds
  induction ds with
  | nil => rfl
  | cons d ds ih =>
    have hday : predictDay m info today a c h d = .ok none := by
      unfold predictDay
      rcases hu with hu | hu
      · rw [hu]
      · rw [hu]
        cases encoderTransform m "area" a <;> rfl
    simp only [runDays, hday]
    exact ih

/-- Shared core of C3 and C9: a trained model with nonempty `feature_cols`
asked about an area or condition missing from the encoders returns a normal
`[]`, not an error. -/
theorem predict_unknown_aux (m : HPModel) (info : String → Option AreaInfo)
    (today : Nat) (a c : String) (h : HistoricalSummary) (n : Nat)
    (htr : m.is_trained = true) (hcols : m.feature_cols ≠ [])
    (hu : encoderTransform m "area" a = none ∨
          encoderTransform m "condition" c = none) :
    predictOutbreakRisk m info today a c h n = .ok (some []) := by
  unfold predictOutbreakRisk
  rw [htr]
  simp only [Bool.true_eq_false, if_false, if_neg hcols]
  rw [runDays_unknown m info today a c h hu]

/-- C3, counterexample: `testModel` is trained only on area `DELMAS`;
predicting for `TABARRE` does not raise anything to the caller — the
`ValueError` from the encoder is caught inside `predict_outbreak_risk`
(ml_models.py:172-174) and the call returns the normal value `[]` (no
exception, and also no dummy-encoded prediction point). -/
theorem predict_unknown_area_returns_normally :
    predictOutbreakRisk testModel info0 today0 "TABARRE" "cholera" h0 7 =
      .ok (some []) := by decide

/-- C3 (amended): for a trained model whose encoding tables do not contain
the requested area or condition, every per-day prediction is skipped — the
encoder failure is caught inside `predict_outbreak_risk`, which returns an
empty list to the caller instead of raising, and no prediction with a dummy
encoded id is produced. -/
theorem predict_unknown_category_skipped (m : HPModel)
    (info : String → Option AreaInfo) (today : Nat) (a c : String)
    (h : HistoricalSummary) (n : Nat)
    (htr : m.is_trained = true) (hcols : m.feature_cols ≠ [])
    (hu : encoderTransform m "area" a = none ∨
          encoderTransform m "condition" c = none) :
    predictOutbreakRisk m info today a c h n = .ok (some []) :=
  predict_unknown_aux m info today a c h n htr hcols hu

/-- C3, witness: the amended statement at the concrete `testModel` and
`TABARRE`. -/
theorem predict_unknown_category_skipped_witness :
    predictOutbreakRisk testModel info0 today0 "TABARRE" "fever" h0 3 =
      .ok (some []) :=
  predict_unknown_category_skipped testModel info0 today0 "TABARRE" "fever"
    h0 3 (by decide) (by decide) (Or.inl (by decide))

/-- C9, counterexample: a model that is trained but whose loaded
`feature_cols` is empty, asked about an area absent from its encoders,
returns `None` (the `feature_cols` guard at ml_models.py:147-149 fires
first), not the empty list the claim requires for every trained model with
an unknown area. -/
theorem predict_trained_unknown_area_empty_cols_returns_none :
    testModelNoCols.is_trained = true ∧
    encoderTransform testModelNoCols "area" "TABARRE" = none ∧
    predictOutbreakRisk testModelNoCols info0 today0 "TABARRE" "cholera" h0 7
      = .ok none ∧
    (Except.ok none : Except Unit (Option (List PredictionPoint))) ≠
      .ok (some []) := by
  refine ⟨by decide, by decide, by decide, by simp⟩

/-- C9 (amended): `predict_outbreak_risk` returns `None` whenever the model
is untrained or `feature_cols` is absent/empty; it returns the empty list
whenever the model is trained, `feature_cols` is nonempty, and the requested
area or condition is absent from the encoding tables; and the two outcomes
are distinguishable by the caller. -/
theorem predict_none_vs_empty (m : HPModel)
    (info : String → Option AreaInfo) (today : Nat) (a c : String)
    (h : HistoricalSummary) (n : Nat) :
    ((m.is_trained = false ∨ m.feature_cols = []) →
      predictOutbreakRisk m info today a c h n = .ok none) ∧
    (m.is_trained = true → m.feature_cols ≠ [] →
      (encoderTransform m "area" a = none ∨
       encoderTransform m "condition" c = none) →
      predictOutbreakRisk m info today a c h n = .ok (some [])) ∧
    ((Except.ok none : Except Unit (Option (List PredictionPoint))) ≠
      .ok (some [])) := by
  refine ⟨?_, ?_, by simp⟩
  · rintro (hf | hcols)
    · unfold predictOutbreakRisk
      rw [hf]
      rfl
    · unfold predictOutbreakRisk
      rw [hcols]
      cases hm : m.is_trained <;> rfl
  · intro htr hcols hu
    exact predict_unknown_aux m info today a c h n htr hcols hu

/-- C9, witness: the None case at an untrained model and the empty-list case
at `testModel` with an unknown area. -/
theorem predict_none_vs_empty_witness :
    predictOutbreakRisk { testModel with is_trained := false } info0 today0
      "DELMAS" "cholera" h0 7 = .ok none ∧
    predictOutbreakRisk testModel info0 today0 "TABARRE" "diarrhea" h0 7 =
      .ok (some []) := by
  refine ⟨(predict_none_vs_empty _ info0 today0 "DELMAS" "cholera" h0 7).1
    (Or.inl (by decide)), ?_⟩
  exact (predict_none_vs_empty testModel info0 today0 "TABARRE" "diarrhea"
    h0 7).2.1 (by decide) (by decide) (Or.inl (by decide))

/-! ### C10 — historical summary arithmetic -/

/-- Fixture: a small store of health reports. -/
def reports0 : List StoredReport :=
  [⟨"DELMAS", "cholera", 19990, 2⟩, ⟨"DELMAS", "cholera", 19995, 3⟩,
   ⟨"DELMAS", "fever", 19996, 9⟩, ⟨"TABARRE", "cholera", 19997, 5⟩]

/-- C10: the summary from `get_historical_health_data` always satisfies
`avg_cases_7d = recent_cases_7d / 7` exactly: with at least one recent
report, `recent_cases_7d` is the sum of cases over the (at most) last 7
recent reports — a true suffix of the recent list, of length
`min 7 (number of recent reports)` — and `avg_cases_7d` divides that sum by
the constant 7 even when fewer than 7 reports contributed; with no recent
reports all three fields are 0. -/
theorem historical_summary_avg (reports : List StoredReport)
    (area condition : String) (now : Nat) :
    (getHistoricalHealthData reports area condition now).avg_cases_7d =
      (getHistoricalHealthData reports area condition now).recent_cases_7d / 7 ∧
    (getRecentHealthReports reports area condition (now - 30) = [] →
      getHistoricalHealthData reports area condition now = ⟨0, 0, 0⟩) ∧
    (getRecentHealthReports reports area condition (now - 30) ≠ [] →
      (getHistoricalHealthData reports area condition now).recent_cases_7d =
        ((lastN 7 (getRecentHealthReports reports area condition
          (now - 30))).map (·.cases)).sum ∧
      (lastN 7 (getRecentHealthReports reports area condition
          (now - 30))).length =
        min 7 (getRecentHealthReports reports area condition
          (now - 30)).length ∧
      ((getRecentHealthReports reports area condition (now - 30)).take
          ((getRecentHealthReports reports area condition (now - 30)).length
            - 7)) ++
        lastN 7 (getRecentHealthReports reports area condition (now - 30)) =
        getRecentHealthReports reports area condition (now - 30)) := by
  by_cases hre : getRecentHealthReports reports area condition (now - 30) = []
  · have hzero : getHistoricalHealthData reports area condition now =
        ⟨0, 0, 0⟩ := by
      unfold getHistoricalHealthData
      rw [hre]
      rfl
    rw [hzero]
    exact ⟨by norm_num, fun _ => rfl, fun hne => absurd hre hne⟩
  · have hne : (getRecentHealthReports reports area condition
        (now - 30)).isEmpty = false := by
      cases hl : getRecentHealthReports reports area condition (now - 30) with
      | nil => exact absurd hl hre
      | cons a l => rfl
    have hdef : getHistoricalHealthData reports area condition now =
        ⟨((lastN 7 (getRecentHealthReports reports area condition
            (now - 30))).map (·.cases)).sum,
          ((lastN 14 (getRecentHealthReports reports area condition
            (now - 30))).map (·.cases)).sum,
          ((lastN 7 (getRecentHealthReports reports area condition
            (now - 30))).map (·.cases)).sum / 7⟩ := by
      unfold getHistoricalHealthData
      simp only [hne, Bool.false_eq_true, if_false]
    rw [hdef]
    refine ⟨rfl, fun he => absurd he hre, fun _ => ⟨rfl, ?_, ?_⟩⟩
    · unfold lastN
      rw [List.length_drop]
      omega
    · exact List.take_append_drop
        ((getRecentHealthReports reports area condition (now - 30)).length
          - 7) _

/-- C10, witness: the summary over `reports0` for `DELMAS`/`cholera`
30 days before day 20020: two recent reports, so
`recent_cases_7d = 2 + 3 = 5` and `avg_cases_7d = 5/7`. -/
theorem historical_summary_avg_witness :
    (getHistoricalHealthData reports0 "DELMAS" "cholera" 20020).avg_cases_7d =
      (getHistoricalHealthData reports0 "DELMAS" "cholera"
        20020).recent_cases_7d / 7 ∧
    (getHistoricalHealthData reports0 "DELMAS" "cholera"
        20020).recent_cases_7d =
      ((lastN 7 (getRecentHealthReports reports0 "DELMAS" "cholera"
        (20020 - 30))).map (·.cases)).sum := by
  refine ⟨(historical_summary_avg reports0 "DELMAS" "cholera" 20020).1, ?_⟩
  exact ((historical_summary_avg reports0 "DELMAS" "cholera" 20020).2.2
    (by decide)).1

/-! ### C5 — one point per future day -/

/-- When the encoders contain the area and condition and `feature_cols` is
the trained column list, one loop iteration always emits a point dated
`today + day`. -/
theorem predictDay_success (m : HPModel) (info : String → Option AreaInfo)
    (today : Nat) (a c : String) (h : HistoricalSummary) (d : Nat)
    (ae ce : Nat)
    (hA : encoderTransform m "area" a = some ae)
    (hC : encoderTransform m "condition" c = some ce)
    (hcols : m.feature_cols = healthFeatureCols) :
    ∃ pt, predictDay m info today a c h d = .ok (some pt) ∧
      pt.date = today + d := by
  unfold predictDay
  rw [hA, hC, hcols]
  exact ⟨_, rfl, rfl⟩

/-- If every day of the list yields a point, the loop returns one point per
day, in order, with the dates carried through. -/
theorem runDays_all_some (m : HPModel) (info : String → Option AreaInfo)
    (today : Nat) (a c : String) (h : HistoricalSummary) :
    ∀ ds : List Nat,
      (∀ d ∈ ds, ∃ pt, predictDay m info today a c h d = .ok (some pt) ∧
        pt.date = today + d) →
      ∃ pts, runDays m info today a c h ds = .ok pts ∧
        pts.length = ds.length ∧
        ∀ i, i < ds.length →
          (pts.getD i default).date = today + ds.getD i 0 := by
  intro ds
  induction ds with
  | nil =>
    intro _
    exact ⟨[], rfl, rfl, fun i hi => absurd hi (Nat.not_lt_zero i)⟩
  | cons d ds ih =>
    intro hsome
    obtain ⟨pt, hpt, hdate⟩ := hsome d (List.mem_cons_self d ds)
    obtain ⟨pts, hrun, hlen, hidx⟩ :=
      ih (fun e he => hsome e (List.mem_cons_of_mem d he))
    refine ⟨pt :: pts, ?_, by simpa using hlen, ?_⟩
    · simp only [runDays, hpt, hrun]
    · intro i hi
      cases i with
      | zero => simpa using hdate
      | succ i =>
        have hi' : i < ds.length := by simpa using hi
        simpa using hidx i hi'

/-- C5: for a trained model whose encoders contain the area and the
condition, `predict_outbreak_risk` succeeds with exactly `days_ahead`
points, the `d`-th (0-based) dated `today + d + 1` — one point per future
calendar day starting tomorrow, in order. -/
theorem predict_one_point_per_day (m : HPModel)
    (info : String → Option AreaInfo) (today : Nat) (a c : String)
    (h : HistoricalSummary) (n : Nat)
    (hn : 1 ≤ n) (htr : m.is_trained = true)
    (hcols : m.feature_cols = healthFeatureCols)
    (hA : ∃ i, encoderTransform m "area" a = some i)
    (hC : ∃ j, encoderTransform m "condition" c = some j) :
    ∃ pts, predictOutbreakRisk m info today a c h n = .ok (some pts) ∧
      pts.length = n ∧
      ∀ d, d < n → (pts.getD d default).date = today + (d + 1) := by
  obtain ⟨ae, hA⟩ := hA
  obtain ⟨ce, hC⟩ := hC
  obtain ⟨pts, hrun, hlen, hidx⟩ :=
    runDays_all_some m info today a c h (List.range' 1 n)
      (fun d _ => predictDay_success m info today a c h d ae ce hA hC hcols)
  have hcne : m.feature_cols ≠ [] := by
    rw [hcols]
    exact fun hcontra => List.noConfusion hcontra
  refine ⟨pts, ?_, by rw [hlen, List.length_range'], ?_⟩
  · unfold predictOutbreakRisk
    rw [htr]
    simp only [Bool.true_eq_false, if_false, if_neg hcne, hrun]
  · intro d hd
    have hd' : d < (List.range' 1 n).length := by
      rw [List.length_range']
      exact hd
    have hgd : (List.range' 1 n).getD d 0 = 1 + d := by
      rw [List.getD_eq_getElem?_getD, List.getElem?_range' 1 1 hd]
      simp
    rw [hidx d hd', hgd]
    omega

/-- C5, witness: at `testModel` with 3 days ahead, the hypotheses hold and
the conclusion follows at the concrete input. -/
theorem predict_one_point_per_day_witness :
    (1 ≤ 3 ∧ testModel.is_trained = true ∧
      testModel.feature_cols = healthFeatureCols ∧
      encoderTransform testModel "area" "DELMAS" = some 0 ∧
      encoderTransform testModel "condition" "cholera" = some 0) ∧
    ∃ pts, predictOutbreakRisk testModel info0 today0 "DELMAS" "cholera" h0 3
        = .ok (some pts) ∧
      pts.length = 3 ∧
      ∀ d, d < 3 → (pts.getD d default).date = today0 + (d + 1) := by
  refine ⟨⟨by decide, by decide, by decide, by decide, by decide⟩, ?_⟩
  exact predict_one_point_per_day testModel info0 today0 "DELMAS" "cholera"
    h0 3 (by decide) (by decide) (by decide) ⟨0, by decide⟩ ⟨0, by decide⟩

/-! ### C6 — per-pair failure isolation in the orchestrator -/

theorem scanPairs_cons (idGen : String × String → String) (today : Nat)
    (outcome : String × String → Except Unit (Option (List PredictionPoint)))
    (s : OrchState) (p : String × String) (ps : List (String × String)) :
    scanPairs idGen today outcome s (p :: ps) =
      scanPairs idGen today outcome (orchStep idGen today outcome s p) ps :=
  rfl

theorem scanPairs_append (idGen : String × String → String) (today : Nat)
    (outcome : String × String → Except Unit (Option (List PredictionPoint)))
    (s : OrchState) (l1 l2 : List (String × String)) :
    scanPairs idGen today outcome s (l1 ++ l2) =
      scanPairs idGen today outcome (scanPairs idGen today outcome s l1) l2 :=
  List.foldl_append _ _ _ _

/-- A caught per-pair exception only appends to the error log. -/
theorem orchStep_error (idGen : String × String → String) (today : Nat)
    (outcome : String × String → Except Unit (Option (List PredictionPoint)))
    (s : OrchState) (p : String × String) (hp : outcome p = .error ()) :
    orchStep idGen today outcome s p = { s with errLog := s.errLog ++ [p] } := by
  unfold orchStep
  rw [hp]

/-- A successful nonempty prediction saves its record and appends it to the
save log. -/
theorem orchStep_save (idGen : String × String → String) (today : Nat)
    (outcome : String × String → Except Unit (Option (List PredictionPoint)))
    (s : OrchState) (p : String × String) (preds : List PredictionPoint)
    (hp : outcome p = .ok (some preds)) (hne : preds ≠ []) :
    (orchStep idGen today outcome s p).saved =
      s.saved ++ [mkPredictionRecord idGen today p preds] := by
  unfold orchStep
  rw [hp]
  have : preds.isEmpty = false := by
    cases preds with
    | nil => exact absurd rfl hne
    | cons a l => rfl
  simp only [this, Bool.false_eq_true, if_false]

/-- One step changes `db`, `saved` and `highRisk` independently of the
error log. -/
theorem orchStep_core_agree (idGen : String × String → String) (today : Nat)
    (outcome : String × String → Except Unit (Option (List PredictionPoint)))
    (s1 s2 : OrchState) (p : String × String)
    (hdb : s1.db = s2.db) (hsv : s1.saved = s2.saved)
    (hhr : s1.highRisk = s2.highRisk) :
    (orchStep idGen today outcome s1 p).db =
        (orchStep idGen today outcome s2 p).db ∧
      (orchStep idGen today outcome s1 p).saved =
        (orchStep idGen today outcome s2 p).saved ∧
      (orchStep idGen today outcome s1 p).highRisk =
        (orchStep idGen today outcome s2 p).highRisk := by
  unfold orchStep
  cases houtcome : outcome p with
  | error e => exact ⟨hdb, hsv, hhr⟩
  | ok o =>
    cases o with
    | none => exact ⟨hdb, hsv, hhr⟩
    | some preds =>
      cases hemp : preds.isEmpty
      · simp only [hemp, Bool.false_eq_true, if_false, hdb, hsv, hhr]
        exact ⟨trivial, trivial, trivial⟩
      · simp only [hemp, if_true]
        exact ⟨hdb, hsv, hhr⟩

/-- The scan's `db`, `saved` and `highRisk` are determined by their initial
values, independently of the error log. -/
theorem scanPairs_core_agree (idGen : String × String → String) (today : Nat)
    (outcome : String × String → Except Unit (Option (List PredictionPoint))) :
    ∀ (pairs : List (String × String)) (s1 s2 : OrchState),
      s1.db = s2.db → s1.saved = s2.saved → s1.highRisk = s2.highRisk →
      (scanPairs idGen today outcome s1 pairs).db =
          (scanPairs idGen today outcome s2 pairs).db ∧
        (scanPairs idGen today outcome s1 pairs).saved =
          (scanPairs idGen today outcome s2 pairs).saved ∧
        (scanPairs idGen today outcome s1 pairs).highRisk =
          (scanPairs idGen today outcome s2 pairs).highRisk := by
  intro pairs
  induction pairs with
  | nil => exact fun s1 s2 hdb hsv hhr => ⟨hdb, hsv, hhr⟩
  | cons p ps ih =>
    intro s1 s2 hdb hsv hhr
    rw [scanPairs_cons, scanPairs_cons]
    obtain ⟨hdb', hsv', hhr'⟩ :=
      orchStep_core_agree idGen today outcome s1 s2 p hdb hsv hhr
    exact ih _ _ hdb' hsv' hhr'

/-- The save log and the error log only grow during a scan. -/
theorem scanPairs_logs_extend (idGen : String × String → String) (today : Nat)
    (outcome : String × String → Except Unit (Option (List PredictionPoint))) :
    ∀ (pairs : List (String × String)) (s : OrchState),
      (∃ t, (scanPairs idGen today outcome s pairs).saved = s.saved ++ t) ∧
      (∃ t, (scanPairs idGen today outcome s pairs).errLog =
        s.errLog ++ t) := by
  intro pairs
  induction pairs with
  | nil => exact fun s => ⟨⟨[], (List.append_nil _).symm⟩,
      ⟨[], (List.append_nil _).symm⟩⟩
  | cons p ps ih =>
    intro s
    rw [scanPairs_cons]
    obtain ⟨⟨t1, ht1⟩, ⟨t2, ht2⟩⟩ := ih (orchStep idGen today outcome s p)
    have hstep : (∃ u, (orchStep idGen today outcome s p).saved =
          s.saved ++ u) ∧
        (∃ u, (orchStep idGen today outcome s p).errLog =
          s.errLog ++ u) := by
      unfold orchStep
      cases houtcome : outcome p with
      | error e => exact ⟨⟨[], (List.append_nil _).symm⟩, ⟨[p], rfl⟩⟩
      | ok o =>
        cases o with
        | none => exact ⟨⟨[], (List.append_nil _).symm⟩,
            ⟨[], (List.append_nil _).symm⟩⟩
        | some preds =>
          cases hemp : preds.isEmpty
          · simp only [hemp, Bool.false_eq_true, if_false]
            exact ⟨⟨[mkPredictionRecord idGen today p preds], rfl⟩,
              ⟨[], (List.append_nil _).symm⟩⟩
          · simp only [hemp, if_true]
            exact ⟨⟨[], (List.append_nil _).symm⟩,
              ⟨[], (List.append_nil _).symm⟩⟩
    obtain ⟨⟨u1, hu1⟩, ⟨u2, hu2⟩⟩ := hstep
    rw [hu1] at ht1
    rw [hu2] at ht2
    exact ⟨⟨u1 ++ t1, by rw [ht1, List.append_assoc]⟩,
      ⟨u2 ++ t2, by rw [ht2, List.append_assoc]⟩⟩

/-- Every scanned pair with a successful nonempty prediction has its record
passed to `save_prediction` during the scan. -/
theorem scanPairs_record_saved (idGen : String × String → String)
    (today : Nat)
    (outcome : String × String → Except Unit (Option (List PredictionPoint))) :
    ∀ (pairs : List (String × String)) (s : OrchState)
      (p : String × String) (preds : List PredictionPoint),
      p ∈ pairs → outcome p = .ok (some preds) → preds ≠ [] →
      mkPredictionRecord idGen today p preds ∈
        (scanPairs idGen today outcome s pairs).saved := by
  intro pairs
  induction pairs with
  | nil => exact fun s p preds hp => absurd hp (List.not_mem_nil p)
  | cons q qs ih =>
    intro s p preds hp hok hne
    rw [scanPairs_cons]
    rcases List.mem_cons.mp hp with rfl | hmem
    · obtain ⟨⟨t, ht⟩, -⟩ :=
        scanPairs_logs_extend idGen today outcome qs
          (orchStep idGen today outcome s p)
      rw [ht, orchStep_save idGen today outcome s p preds hok hne]
      exact List.mem_append_left _ (List.mem_append_right _
        (List.mem_singleton.mpr rfl))
    · exact ih _ p preds hmem hok hne

/-- A scanned pair whose processing raises is recorded in the error log. -/
theorem scanPairs_error_logged (idGen : String × String → String)
    (today : Nat)
    (outcome : String × String → Except Unit (Option (List PredictionPoint))) :
    ∀ (pairs : List (String × String)) (s : OrchState)
      (q : String × String),
      q ∈ pairs → outcome q = .error () →
      q ∈ (scanPairs idGen today outcome s pairs).errLog := by
  intro pairs
  induction pairs with
  | nil => exact fun s q hq => absurd hq (List.not_mem_nil q)
  | cons p ps ih =>
    intro s q hq herr
    rw [scanPairs_cons]
    rcases List.mem_cons.mp hq with rfl | hmem
    · obtain ⟨-, ⟨t, ht⟩⟩ :=
        scanPairs_logs_extend idGen today outcome ps
          (orchStep idGen today outcome s q)
      rw [ht, orchStep_error idGen today outcome s q herr]
      exact List.mem_append_left _ (List.mem_append_right _
        (List.mem_singleton.mpr rfl))
    · exact ih _ q hmem herr

/-- C6: a pair whose processing raises is logged and isolated: the store,
the save log and the high-risk triggers of the whole scan are exactly those
of the scan without the failing pair, and every other scanned pair with a
successful nonempty prediction still has its record persisted (passed to
`save_prediction`).  `run_predictions_for_all_areas` is this scan over the
fixed 8 x 5 pair list. -/
theorem orchestrator_partial_failure_isolation
    (idGen : String × String → String) (today : Nat)
    (outcome : String × String → Except Unit (Option (List PredictionPoint)))
    (s : OrchState) (l1 l2 : List (String × String)) (q : String × String)
    (hq : outcome q = .error ()) :
    ((scanPairs idGen today outcome s (l1 ++ q :: l2)).db =
        (scanPairs idGen today outcome s (l1 ++ l2)).db ∧
      (scanPairs idGen today outcome s (l1 ++ q :: l2)).saved =
        (scanPairs idGen today outcome s (l1 ++ l2)).saved ∧
      (scanPairs idGen today outcome s (l1 ++ q :: l2)).highRisk =
        (scanPairs idGen today outcome s (l1 ++ l2)).highRisk) ∧
    q ∈ (scanPairs idGen today outcome s (l1 ++ q :: l2)).errLog ∧
    (∀ p ∈ l1 ++ q :: l2, ∀ preds,
      outcome p = .ok (some preds) → preds ≠ [] →
      mkPredictionRecord idGen today p preds ∈
        (scanPairs idGen today outcome s (l1 ++ q :: l2)).saved) := by
  refine ⟨?_, ?_, ?_⟩
  · rw [scanPairs_append, scanPairs_append, scanPairs_cons]
    refine scanPairs_core_agree idGen today outcome l2 _ _ ?_ ?_ ?_ <;>
      rw [orchStep_error idGen today outcome _ q hq]
  · exact scanPairs_error_logged idGen today outcome (l1 ++ q :: l2) s q
      (List.mem_append_right l1 (List.mem_cons_self q l2)) hq
  · exact fun p hp preds hok hne =>
      scanPairs_record_saved idGen today outcome (l1 ++ q :: l2) s p preds
        hp hok hne

/-- Fixture: three scanned pairs with distinct areas. -/
def pairA : String × String := ("CITE_SOLEIL", "cholera")

/-- Fixture pair whose processing raises. -/
def pairB : String × String := ("DELMAS", "cholera")

/-- Fixture pair after the failing one. -/
def pairC : String × String := ("TABARRE", "cholera")

/-- Fixture outcome: pair B raises, the others predict one point. -/
def outcome0 : String × String → Except Unit (Option (List PredictionPoint)) :=
  fun p => if p = pairB then .error () else .ok (some [pt0])

/-- Fixture id generator. -/
def idGen0 : String × String → String := fun p => p.1 ++ p.2

/-- C6, witness: with three pairs where the second raises, the scan matches
the scan without the failing pair, the failure is logged, and pairs 1 and 3
still have their records passed to `save_prediction`. -/
theorem orchestrator_partial_failure_isolation_witness :
    outcome0 pairB = .error () ∧
    (scanPairs idGen0 today0 outcome0 ⟨[], [], [], []⟩
        [pairA, pairB, pairC]).db =
      (scanPairs idGen0 today0 outcome0 ⟨[], [], [], []⟩ [pairA, pairC]).db ∧
    pairB ∈ (scanPairs idGen0 today0 outcome0 ⟨[], [], [], []⟩
        [pairA, pairB, pairC]).errLog ∧
    mkPredictionRecord idGen0 today0 pairA [pt0] ∈
      (scanPairs idGen0 today0 outcome0 ⟨[], [], [], []⟩
        [pairA, pairB, pairC]).saved ∧
    mkPredictionRecord idGen0 today0 pairC [pt0] ∈
      (scanPairs idGen0 today0 outcome0 ⟨[], [], [], []⟩
        [pairA, pairB, pairC]).saved := by
  have h := orchestrator_partial_failure_isolation idGen0 today0 outcome0
    ⟨[], [], [], []⟩ [pairA] [pairC] pairB rfl
  exact ⟨rfl, h.1.1, h.2.1,
    h.2.2 pairA (by decide) [pt0] (by decide) (by decide),
    h.2.2 pairC (by decide) [pt0] (by decide) (by decide)⟩

/-! ### C4 — lag/rolling features per (area, condition) partition -/

/-- Positional characterization of pandas `shift(k)`: position `i` holds the
value `k` rows earlier, or NaN for the first `k` positions. -/
theorem seriesShift_getElem (k : Nat) (xs : List ℚ) (i : Nat)
    (hi : i < xs.length) :
    (seriesShift k xs)[i]? =
      some (if k ≤ i then some (xs.getD (i - k) 0) else none) := by
  unfold seriesShift
  by_cases hk : i < min k xs.length
  · rw [List.getElem?_append_left (by rw [List.length_replicate]; exact hk),
      List.getElem?_replicate, if_pos hk, if_neg (by omega)]
  · have hkle : k ≤ i := by omega
    rw [List.getElem?_append_right (by rw [List.length_replicate]; omega),
      List.length_replicate, List.getElem?_map, List.getElem?_take]
    have hj : i - min k xs.length = i - k := by omega
    rw [hj, if_pos (by omega : i - k < xs.length - k),
      List.getElem?_eq_getElem (by omega : i - k < xs.length), if_pos hkle]
    rw [List.getD_eq_getElem?_getD,
      List.getElem?_eq_getElem (by omega : i - k < xs.length)]
    rfl

/-- The rolling window at position `i` has length `min (i+1) w` and holds
the window's trailing values. -/
theorem rollingWindow_spec (w : Nat) (xs : List ℚ) (i : Nat)
    (hi : i < xs.length) :
    ((xs.take (i + 1)).drop (i + 1 - w)).length = min (i + 1) w ∧
    ∀ j, j < min (i + 1) w →
      ((xs.take (i + 1)).drop (i + 1 - w)).getD j 0 =
        xs.getD (i + 1 - min (i + 1) w + j) 0 := by
  constructor
  · rw [List.length_drop, List.length_take]
    omega
  · intro j hj
    rw [List.getD_eq_getElem?_getD, List.getElem?_drop, List.getElem?_take,
      if_pos (by omega : i + 1 - w + j < i + 1),
      List.getElem?_eq_getElem (by omega : i + 1 - w + j < xs.length),
      List.getD_eq_getElem?_getD,
      List.getElem?_eq_getElem
        (by omega : i + 1 - min (i + 1) w + j < xs.length)]
    have : i + 1 - w + j = i + 1 - min (i + 1) w + j := by omega
    simp only [Option.getD_some]
    congr 1

/-- `rolling(w).mean()` at position `i` is the mean of the trailing window. -/
theorem rollingMean_getElem (w : Nat) (xs : List ℚ) (i : Nat)
    (hi : i < xs.length) :
    (rollingMean w xs)[i]? =
      some (((xs.take (i + 1)).drop (i + 1 - w)).sum /
        (((xs.take (i + 1)).drop (i + 1 - w)).length : ℚ)) := by
  unfold rollingMean
  rw [List.getElem?_map, List.getElem?_range hi]
  rfl

theorem addLagRolling_length (g : List Report) :
    (addLagRolling g).length = g.length := by
  simp [addLagRolling]

/-- The shape of the `i`-th feature row of one group. -/
theorem addLagRolling_getD (g : List Report) (i : Nat) (hi : i < g.length) :
    (addLagRolling g).getD i default =
      { report := g.getD i default
        cases_lag_7 :=
          ((seriesShift 7 (g.map (·.cases))).getD i none).getD 0
        cases_lag_14 :=
          ((seriesShift 14 (g.map (·.cases))).getD i none).getD 0
        cases_rolling_7 := (rollingMean 7 (g.map (·.cases))).getD i 0 } := by
  unfold addLagRolling
  rw [List.getD_eq_getElem?_getD, List.getElem?_map, List.getElem?_range hi]
  rfl

/-- Lag column value at a position of one group: 0 for the first `k` rows,
the `cases` value `k` rows earlier after that. -/
theorem lag_getD (k : Nat) (g : List Report) (i : Nat) (hi : i < g.length) :
    ((seriesShift k (g.map (·.cases))).getD i none).getD 0 =
      if k ≤ i then (g.getD (i - k) default).cases else 0 := by
  have hlen : i < (g.map (·.cases)).length := by simpa using hi
  rw [List.getD_eq_getElem?_getD, seriesShift_getElem k _ i hlen]
  by_cases hk : k ≤ i
  · rw [if_pos hk, if_pos hk]
    simp only [Option.getD_some]
    rw [List.getD_eq_getElem?_getD, List.getElem?_map,
      List.getElem?_eq_getElem (by omega : i - k < g.length),
      List.getD_eq_getElem?_getD,
      List.getElem?_eq_getElem (by omega : i - k < g.length)]
    rfl
  · rw [if_neg hk, if_neg hk]
    rfl

/-- Every feature row of a group carries a report of that group. -/
theorem report_mem_of_mem_addLagRolling (g : List Report) (fr : FeatureRow)
    (h : fr ∈ addLagRolling g) : fr.report ∈ g := by
  unfold addLagRolling at h
  obtain ⟨i, hi, rfl⟩ := List.mem_map.mp h
  have hi' : i < g.length := List.mem_range.mp hi
  show g.getD i default ∈ g
  rw [List.getD_eq_getElem?_getD, List.getElem?_eq_getElem hi']
  exact List.getElem_mem hi'

/-- Members of a group have the group's key and come from the dataframe. -/
theorem mem_groupOf (df : List Report) (k : String × String) (r : Report)
    (hr : r ∈ groupOf df k) : groupKey r = k ∧ r ∈ df := by
  unfold groupOf sortByDate at hr
  rw [List.mem_insertionSort] at hr
  have hm := List.mem_filter.mp hr
  exact ⟨by simpa using hm.2, hm.1⟩

/-- Filtering a keyed concatenation of groups recovers one group. -/
theorem filter_flatMap_key {α κ : Type} [DecidableEq κ] (keyf : α → κ) :
    ∀ (ks : List κ) (F : κ → List α) (k : κ), ks.Nodup → k ∈ ks →
      (∀ k' ∈ ks, ∀ a ∈ F k', keyf a = k') →
      (ks.flatMap F).filter (fun a => keyf a = k) = F k := by
  intro ks
  induction ks with
  | nil => exact fun F k _ hk _ => absurd hk (List.not_mem_nil k)
  | cons k0 ks ih =>
    intro F k hnd hk hF
    obtain ⟨hk0, hnd'⟩ := List.nodup_cons.mp hnd
    rw [List.flatMap_cons, List.filter_append]
    rcases List.mem_cons.mp hk with rfl | hmem
    · have h1 : (F k).filter (fun a => keyf a = k) = F k :=
        List.filter_eq_self.mpr (fun a ha => by
          simpa using hF k (List.mem_cons_self k ks) a ha)
      have h2 : (ks.flatMap F).filter (fun a => keyf a = k) = [] := by
        rw [List.filter_eq_nil_iff]
        intro a ha
        obtain ⟨k', hk', ha'⟩ := List.mem_flatMap.mp ha
        have hkey := hF k' (List.mem_cons_of_mem _ hk') a ha'
        have hne : k' ≠ k := fun he => hk0 (he ▸ hk')
        simp [hkey, hne]
      rw [h1, h2, List.append_nil]
    · have h1 : (F k0).filter (fun a => keyf a = k) = [] := by
        rw [List.filter_eq_nil_iff]
        intro a ha
        have hkey := hF k0 (List.mem_cons_self k0 ks) a ha
        have hne : k0 ≠ k := fun he => hk0 (he ▸ hmem)
        simp [hkey, hne]
      rw [h1, List.nil_append]
      exact ih F k hnd' hmem
        (fun k' h' => hF k' (List.mem_cons_of_mem k0 h'))

/-- The rows of the feature-builder output belonging to group `k` are
exactly the lag/rolling computation over that group alone. -/
theorem prepareLagFeatures_filter (df : List Report) (k : String × String)
    (hk : k ∈ keysOf df) :
    (prepareLagFeatures df).filter (fun fr => groupKey fr.report = k) =
      addLagRolling (groupOf df k) := by
  unfold prepareLagFeatures
  refine filter_flatMap_key (fun fr : FeatureRow => groupKey fr.report)
    (keysOf df) (fun k' => addLagRolling (groupOf df k')) k
    (List.nodup_dedup _) hk ?_
  intro k' _ fr hfr
  exact (mem_groupOf df k' fr.report
    (report_mem_of_mem_addLagRolling _ fr hfr)).1

/-- `cases` column lookup agrees with the report lookup. -/
theorem map_cases_getD (g : List Report) (i : Nat) (hi : i < g.length) :
    (g.map (·.cases)).getD i 0 = (g.getD i default).cases := by
  rw [List.getD_eq_getElem?_getD, List.getElem?_map,
    List.getElem?_eq_getElem hi, List.getD_eq_getElem?_getD,
    List.getElem?_eq_getElem hi]
  rfl

/-- C4: the feature builder computes the lag and rolling columns per
(area, condition) partition, sorted ascending by date, independently of
other partitions: the output rows of partition `k` are exactly the
computation over that partition alone; positionally, `cases_lag_7` at row
`i` is the `cases` value 7 rows earlier (0 when fewer than 7 prior rows
exist, hence 0 everywhere in partitions shorter than 7), `cases_lag_14`
likewise with 14; `cases_rolling_7` at row `i` is the mean of the trailing
window of the up-to-7 most recent `cases` values (minimum window 1); and the
partition's output depends only on the partition's own rows. -/
theorem feature_builder_lag_rolling (df : List Report) (k : String × String)
    (hk : k ∈ keysOf df) :
    ((prepareLagFeatures df).filter (fun fr => groupKey fr.report = k) =
      addLagRolling (groupOf df k)) ∧
    (((prepareLagFeatures df).filter
        (fun fr => groupKey fr.report = k)).length =
      (groupOf df k).length) ∧
    (∀ i, i < (groupOf df k).length →
      (((prepareLagFeatures df).filter
          (fun fr => groupKey fr.report = k)).getD i default).cases_lag_7 =
        if 7 ≤ i then ((groupOf df k).getD (i - 7) default).cases else 0) ∧
    (∀ i, i < (groupOf df k).length →
      (((prepareLagFeatures df).filter
          (fun fr => groupKey fr.report = k)).getD i default).cases_lag_14 =
        if 14 ≤ i then ((groupOf df k).getD (i - 14) default).cases else 0) ∧
    (∀ i, i < (groupOf df k).length →
      ((((groupOf df k).map (·.cases)).take (i + 1)).drop
          (i + 1 - 7)).length = min (i + 1) 7 ∧
      (∀ j, j < min (i + 1) 7 →
        ((((groupOf df k).map (·.cases)).take (i + 1)).drop
            (i + 1 - 7)).getD j 0 =
          ((groupOf df k).getD (i + 1 - min (i + 1) 7 + j) default).cases) ∧
      (((prepareLagFeatures df).filter
          (fun fr => groupKey fr.report = k)).getD i
            default).cases_rolling_7 =
        ((((groupOf df k).map (·.cases)).take (i + 1)).drop
            (i + 1 - 7)).sum /
          (((((groupOf df k).map (·.cases)).take (i + 1)).drop
            (i + 1 - 7)).length : ℚ)) ∧
    ((groupOf df k).length < 7 →
      ∀ fr ∈ (prepareLagFeatures df).filter
          (fun fr => groupKey fr.report = k),
        fr.cases_lag_7 = 0) ∧
    (∀ df2 : List Report,
      df2.filter (fun r => groupKey r = k) =
        df.filter (fun r => groupKey r = k) →
      k ∈ keysOf df2 →
      (prepareLagFeatures df2).filter (fun fr => groupKey fr.report = k) =
        (prepareLagFeatures df).filter (fun fr => groupKey fr.report = k)) := by
  have h1 := prepareLagFeatures_filter df k hk
  have hmaplen : ∀ i, i < (groupOf df k).length →
      i < ((groupOf df k).map (·.cases)).length := by
    intro i hi
    simpa using hi
  refine ⟨h1, ?_, ?_, ?_, ?_, ?_, ?_⟩
  · rw [h1, addLagRolling_length]
  · intro i hi
    rw [h1, addLagRolling_getD _ i hi]
    exact lag_getD 7 (groupOf df k) i hi
  · intro i hi
    rw [h1, addLagRolling_getD _ i hi]
    exact lag_getD 14 (groupOf df k) i hi
  · intro i hi
    obtain ⟨hwl, hwv⟩ :=
      rollingWindow_spec 7 ((groupOf df k).map (·.cases)) i (hmaplen i hi)
    refine ⟨hwl, ?_, ?_⟩
    · intro j hj
      rw [hwv j hj]
      exact map_cases_getD (groupOf df k) (i + 1 - min (i + 1) 7 + j)
        (by omega)
    · rw [h1, addLagRolling_getD _ i hi]
      show (rollingMean 7 ((groupOf df k).map (·.cases))).getD i 0 = _
      rw [List.getD_eq_getElem?_getD,
        rollingMean_getElem 7 _ i (hmaplen i hi)]
      rfl
  · intro hlen fr hfr
    rw [h1] at hfr
    unfold addLagRolling at hfr
    obtain ⟨i, hi, rfl⟩ := List.mem_map.mp hfr
    have hi' : i < (groupOf df k).length := List.mem_range.mp hi
    show ((seriesShift 7 ((groupOf df k).map (·.cases))).getD i none).getD 0
      = 0
    rw [lag_getD 7 (groupOf df k) i hi', if_neg (by omega)]
  · intro df2 hfilter hk2
    rw [prepareLagFeatures_filter df2 k hk2, h1]
    unfold groupOf
    rw [hfilter]

/-- Fixture: one report row of the `DELMAS`/`cholera` partition. -/
def rowDC (d : Nat) (cs : ℚ) : Report :=
  { area := "DELMAS", condition := "cholera", date := d, cases := cs,
    population := 100000, risk_factor := 1/2, month := 5, day_of_week := 0,
    rainfall := 25, is_outbreak := false }

/-- Fixture dataframe: 8 rows for `DELMAS`/`cholera`, 1 for
`TABARRE`/`fever`. -/
def dfW : List Report :=
  [rowDC 0 1, rowDC 1 2, rowDC 2 3, rowDC 3 4, rowDC 4 5, rowDC 5 6,
   rowDC 6 7, rowDC 7 8,
   { area := "TABARRE", condition := "fever", date := 3, cases := 9,
     population := 50000, risk_factor := 1/2, month := 5, day_of_week := 3,
     rainfall := 25, is_outbreak := true }]

/-- C4, witness: on `dfW`, the `DELMAS`/`cholera` partition's rows are the
per-partition computation, row 7's `cases_lag_7` is row 0's `cases`, and the
single-row `TABARRE`/`fever` partition has `cases_lag_7 = 0` everywhere. -/
theorem feature_builder_lag_rolling_witness :
    ((prepareLagFeatures dfW).filter
      (fun fr => groupKey fr.report = ("DELMAS", "cholera")) =
      addLagRolling (groupOf dfW ("DELMAS", "cholera"))) ∧
    (((prepareLagFeatures dfW).filter
        (fun fr => groupKey fr.report = ("DELMAS", "cholera"))).getD 7
          default).cases_lag_7 =
      (if 7 ≤ 7 then
        ((groupOf dfW ("DELMAS", "cholera")).getD (7 - 7) default).cases
      else 0) ∧
    (∀ fr ∈ (prepareLagFeatures dfW).filter
        (fun fr => groupKey fr.report = ("TABARRE", "fever")),
      fr.cases_lag_7 = 0) := by
  have hD := feature_builder_lag_rolling dfW ("DELMAS", "cholera")
    (by decide)
  have hT := feature_builder_lag_rolling dfW ("TABARRE", "fever")
    (by decide)
  exact ⟨hD.1, hD.2.2.1 7 (by decide), hT.2.2.2.2.2.1 (by decide)⟩

/-! ### C8 — degenerate training inputs -/

/-- Whether an `Except` result is a success. -/
def isSuccess {ε α : Type} : Except ε α → Bool
  | .ok _ => true
  | .error _ => false

/-- The feature builder is 1:1: the groups partition the dataframe. -/
theorem prepareLagFeatures_length (df : List Report) :
    (prepareLagFeatures df).length = df.length := by
  unfold prepareLagFeatures
  rw [List.length_flatMap]
  have hstep : ∀ k ∈ keysOf df,
      (List.length ∘ fun k => addLagRolling (groupOf df k)) k =
        (df.map groupKey).countP (fun y => y = k) := by
    intro k _
    show (addLagRolling (groupOf df k)).length = _
    rw [addLagRolling_length]
    unfold groupOf sortByDate
    rw [List.length_insertionSort, ← List.countP_eq_length_filter,
      List.countP_map]
    refine List.countP_congr ?_
    intro r _
    by_cases h : groupKey r = k <;> simp [h, Function.comp]
  have hsum : ((df.map groupKey).dedup.map
      (fun x => (df.map groupKey).countP (fun y => y = x))).sum =
      (df.map groupKey).length := by
    have h := List.sum_map_count_dedup_eq_length (df.map groupKey)
    rw [← h]
    refine congrArg List.sum (List.map_congr_left ?_)
    intro x _
    rw [@List.count_eq_countP _ instBEqOfDecidableEq]
    refine List.countP_congr ?_
    intro y _
    by_cases hy : y = x <;> simp [hy, instBEqOfDecidableEq]
  rw [List.map_congr_left hstep]
  unfold keysOf
  rw [hsum, List.length_map]

/-- Fixture: the identity selection of training rows. -/
def trivialSel : Nat → List Nat := fun _ => [0]

/-- Fixture: a fitted scaler that is the identity. -/
def trivialScaler : List (List ℚ) → (List ℚ → List ℚ) := fun _ => id

/-- Fixture: a fitted estimator returning 0. -/
def trivialFit : List (List ℚ) → List ℚ → (List ℚ → ℚ) := fun _ _ _ => 0

/-- Fixture: a two-row dataframe whose `area` column and `condition` column
each contain a single distinct value. -/
def degenDf : List Report := [rowDC 0 1, rowDC 1 2]

/-- C8, counterexample: on a dataframe whose categorical columns each hold a
single distinct value, `train` succeeds and produces a trained model pair —
`LabelEncoder`, `StandardScaler` and the estimators all accept single-class
columns, and no code path checks for them. -/
theorem train_single_class_succeeds :
    ((degenDf.map (·.area)).dedup = ["DELMAS"]) ∧
    ((degenDf.map (·.condition)).dedup = ["cholera"]) ∧
    isSuccess
      (trainModel trivialSel trivialScaler trivialFit trivialFit degenDf) =
      true := by
  refine ⟨by decide, by decide, by decide⟩

/-- C8 (amended): training fails fatally on an empty input (the group
concatenation in `prepare_features` raises) and on a one-row input (the
80/20 split would leave an empty training partition); it reports the error
to the caller and produces no model.  A categorical column with a single
distinct value does not cause failure: every input with at least two rows
trains successfully. -/
theorem train_degenerate_inputs (trainSel : Nat → List Nat)
    (fitScaler : List (List ℚ) → (List ℚ → List ℚ))
    (fitCls fitReg : List (List ℚ) → List ℚ → (List ℚ → ℚ))
    (df : List Report) :
    (df = [] →
      trainModel trainSel fitScaler fitCls fitReg df = .error .emptyInput) ∧
    (df.length = 1 →
      trainModel trainSel fitScaler fitCls fitReg df = .error .emptySplit) ∧
    (2 ≤ df.length →
      isSuccess (trainModel trainSel fitScaler fitCls fitReg df) = true) := by
  refine ⟨?_, ?_, ?_⟩
  · intro hdf
    subst hdf
    rfl
  · intro hone
    have hne : df.isEmpty = false := by
      cases df with
      | nil => simp at hone
      | cons a l => rfl
    unfold trainModel
    simp only [hne, Bool.false_eq_true, if_false, prepareLagFeatures_length]
    rw [if_pos (by rw [hone]; rfl)]
  · intro htwo
    have hne : df.isEmpty = false := by
      cases df with
      | nil => simp at htwo
      | cons a l => rfl
    unfold trainModel
    simp only [hne, Bool.false_eq_true, if_false, prepareLagFeatures_length]
    have hlt : nTest df.length < df.length := by
      unfold nTest
      rw [Nat.div_lt_iff_lt_mul (by omega : 0 < 5)]
      omega
    rw [if_neg (by omega)]
    rfl

/-- Coherence of the trained-model hypotheses used on the inference path:
every model pair produced by `train` is marked trained and carries exactly
the `healthFeatureCols` column list (ml_models.py:74-78, 118-119). -/
theorem trainModel_ok_shape (trainSel : Nat → List Nat)
    (fitScaler : List (List ℚ) → (List ℚ → List ℚ))
    (fitCls fitReg : List (List ℚ) → List ℚ → (List ℚ → ℚ))
    (df : List Report) (m : HPModel)
    (hok : trainModel trainSel fitScaler fitCls fitReg df = .ok m) :
    m.is_trained = true ∧ m.feature_cols = healthFeatureCols := by
  unfold trainModel at hok
  split at hok
  · exact Except.noConfusion hok
  · dsimp only at hok
    split at hok
    · exact Except.noConfusion hok
    · simp only [Except.ok.injEq] at hok
      subst hok
      exact ⟨rfl, rfl⟩

/-- C8, witness: the empty input fails with `emptyInput`; the two-row
single-class `degenDf` trains successfully. -/
theorem train_degenerate_inputs_witness :
    trainModel trivialSel trivialScaler trivialFit trivialFit [] =
      .error .emptyInput ∧
    isSuccess
      (trainModel trivialSel trivialScaler trivialFit trivialFit degenDf) =
      true := by
  refine ⟨(train_degenerate_inputs trivialSel trivialScaler trivialFit
    trivialFit []).1 rfl, ?_⟩
  exact (train_degenerate_inputs trivialSel trivialScaler trivialFit
    trivialFit degenDf).2.2 (by decide)

end Alatem
